import Mathlib

/-!
Verification development for the satellite ground-control message-bus
substrate: a shallow embedding of the security/routing hub, the priority
capture scheduler, the append-only persistence log, and the command gate,
together with theorems settling the frozen behavioural claims.

Conventions of the embedding:
* Python numbers (int and float used interchangeably by the code for
  coordinates, intervals, priorities, zone ids) are modelled as `Rat`;
  Python distinguishes int from float only in ways irrelevant to the
  embedded code paths (truthiness, `isinstance((int, float))`, dict-key
  equality and comparisons all agree between the two).
* A mailbox directory is the list of registered queue names; putting an
  event into a queue is recorded as a `Sent` value.
* Log output is modelled as a list of `LogEntry` values carrying exactly
  the data the source interpolates into the corresponding log line.
* Fallible operations (Python code that can raise) return `Option` or
  `Except`.
-/

/-- A value stored in the `extra_parameters` mapping of an event:
the system puts strings (user names) and numbers (priorities, roles)
there. -/
inductive PyVal where
  | num (x : Rat)
  | str (s : String)
deriving DecidableEq

/-- An axis-aligned restricted lat/lon rectangle.  The class lives in
`src/satellite_control_system/restricted_zone.py`, which is not part of
the provided sources; the fields are those used by its callers
(`command_processor._execute_add_zone_command`, `run_system.py`). -/
structure RestrictedZone where
  zone_id : Rat
  lat_bot_left : Rat
  lon_bot_left : Rat
  lat_top_right : Rat
  lon_top_right : Rat
  severity_level : Rat
  description : String
deriving DecidableEq

/-- Modelled from the spec: `RestrictedZone.contains` is defined in the
missing file `restricted_zone.py`.  The spec states that a point is
inside a zone iff `zone.lat_min ≤ lat ≤ zone.lat_max` and
`zone.lon_min ≤ lon ≤ zone.lon_max`, boundary inclusive. -/
def RestrictedZone.contains (z : RestrictedZone) (lat lon : Rat) : Bool :=
  decide (z.lat_bot_left ≤ lat) && decide (lat ≤ z.lat_top_right) &&
  decide (z.lon_bot_left ≤ lon) && decide (lon ≤ z.lon_top_right)

/-- The `parameters` payload of an event: `None`, a number, a tuple/list
of numbers, or a `RestrictedZone` object.  These are the payload shapes
the embedded handlers inspect. -/
inductive Param where
  | pnone
  | num (x : Rat)
  | tup (xs : List Rat)
  | zone (z : RestrictedZone)
deriving DecidableEq

/-- Python truthiness of a payload (`if event.parameters` guards). -/
def Param.isTruthy : Param → Bool
  | .pnone => false
  | .num x => decide (x ≠ 0)
  | .tup xs => !xs.isEmpty
  | .zone _ => true

/-- `isinstance(event.parameters, (tuple, list))`. -/
def Param.isTupleLike : Param → Bool
  | .tup _ => true
  | _ => false

/-- `isinstance(event.parameters, (int, float))`. -/
def Param.isNumber : Param → Bool
  | .num _ => true
  | _ => false

/-- Numeric value of a payload (only used after an `isNumber` guard). -/
def Param.toRat : Param → Rat
  | .num x => x
  | _ => 0

/-- A data-plane message (`src/system/event_types.py` `Event`; the file
itself is outside the provided sources, but every construction site in
the sources uses exactly these keyword fields). -/
structure Event where
  source : String
  destination : String
  operation : String
  parameters : Param
  extra_parameters : Option (List (String × PyVal)) := none
  signature : Option String := none
deriving DecidableEq

/-- Queue-name constants.  `src/system/config.py` is not part of the
provided sources; the values are modelled from their use sites (the
command gate addresses the hub as the literal string `"security"`). -/
def SECURITY_MONITOR_QUEUE_NAME : String := "security"

def ORBIT_DRAWER_QUEUE_NAME : String := "orbit_drawer"

def OPTICS_CONTROL_QUEUE_NAME : String := "optics_control"

def CAMERA_QUEUE_NAME : String := "camera"

/-- A message deposited in a named mailbox (`queue.put(event)`). -/
structure Sent where
  queueName : String
  event : Event
deriving DecidableEq

/-- One log line, carrying the data the source interpolates into it. -/
inductive LogEntry where
  | violation (zoneId : Rat) (user : String)
  | zoneAdded (zoneId : Rat)
  | zoneRemoved (zoneId : Rat)
  | routeFail (dest : String)
  | forwarded (operation : String)
  | intervalChanged (oldVal newVal : Rat)
  | intervalRejected (val : Rat)
  | permissionDenied (user : String) (cmd : String)
  | cmdError (cmd : String)
  | cmdSuccess (cmd : String)
deriving DecidableEq

/-! ## Security/Routing hub (`security_monitor.py`) -/

/-- Mutable state owned by the `SecurityMonitor`: the dict of restricted
zones, modelled as an insertion-ordered association list (Python dicts
iterate in insertion order). -/
structure MonState where
  zones : List (Rat × RestrictedZone)
deriving DecidableEq

/-- `dict[k] = v`: replace in place if the key is present, else append. -/
def dictInsert (k : Rat) (v : RestrictedZone) :
    List (Rat × RestrictedZone) → List (Rat × RestrictedZone)
  | [] => [(k, v)]
  | (k', v') :: rest =>
    if k' = k then (k, v) :: rest else (k', v') :: dictInsert k v rest

/-- `k in dict`. -/
def dictHasKey (k : Rat) : List (Rat × RestrictedZone) → Bool
  | [] => false
  | (k', _) :: rest => k' == k || dictHasKey k rest

/-- `del dict[k]`. -/
def dictRemove (k : Rat) :
    List (Rat × RestrictedZone) → List (Rat × RestrictedZone)
  | [] => []
  | (k', v') :: rest =>
    if k' = k then rest else (k', v') :: dictRemove k rest

/-- `dict.values()` in insertion order. -/
def zoneValues (st : MonState) : List RestrictedZone :=
  st.zones.map Prod.snd

/-- The attributed user of an event:
`event.extra_parameters.get("user", "unknown") if event.extra_parameters
else "unknown"` (an absent or empty mapping both yield `"unknown"`; a
numeric value is rendered the way the f-string renders it). -/
def userOf (e : Event) : String :=
  match e.extra_parameters with
  | none => "unknown"
  | some ps =>
    match ps.lookup "user" with
    | some (.str s) => s
    | some (.num n) => toString n
    | none => "unknown"

/-- `SecurityMonitor._check_event`: only `update_photo_map` traffic bound
for the orbit drawer, carrying a truthy tuple/list payload of at least
two elements, is geofence-checked; the first containing zone (in dict
iteration order) yields a deny with a logged violation. -/
def checkEvent (st : MonState) (e : Event) : Bool × List LogEntry :=
  if e.destination = ORBIT_DRAWER_QUEUE_NAME ∧ e.operation = "update_photo_map" then
    match e.parameters with
    | .tup (lat :: lon :: _) =>
      match (zoneValues st).find? (fun z => z.contains lat lon) with
      | some z => (false, [.violation z.zone_id (userOf e)])
      | none => (true, [])
    | _ => (true, [])
  else (true, [])

/-- The zone-removal key of a payload.  `event.parameters in dict` holds
for a numeric payload equal to a stored key; a `None` or tuple payload is
never a key (a `RestrictedZone` payload would be unhashable and raise,
which the run loop absorbs: observably the same no-op). -/
def zoneKey : Param → Option Rat
  | .num x => some x
  | _ => none

/-- The `draw_restricted_zone` fan-out event. -/
def drawZoneEvent (z : RestrictedZone) : Event :=
  { source := SECURITY_MONITOR_QUEUE_NAME
    destination := ORBIT_DRAWER_QUEUE_NAME
    operation := "draw_restricted_zone"
    parameters := .zone z }

/-- The `clear_restricted_zone` fan-out event. -/
def clearZoneEvent (zoneId : Rat) : Event :=
  { source := SECURITY_MONITOR_QUEUE_NAME
    destination := ORBIT_DRAWER_QUEUE_NAME
    operation := "clear_restricted_zone"
    parameters := .num zoneId }

/-- `SecurityMonitor._proceed`: zone management commands mutate the zone
dict and fan out to the drawer; everything else is forwarded verbatim to
the mailbox registered under `event.destination`, or logged as a routing
failure.  `qs` is the list of registered queue names. -/
def proceed (qs : List String) (st : MonState) (e : Event) :
    MonState × List Sent × List LogEntry :=
  if e.operation = "add_restricted_zone" then
    match e.parameters with
    | .zone z =>
      ({ zones := dictInsert z.zone_id z st.zones },
       if ORBIT_DRAWER_QUEUE_NAME ∈ qs then
         [⟨ORBIT_DRAWER_QUEUE_NAME, drawZoneEvent z⟩]
       else [],
       [.zoneAdded z.zone_id])
    | _ => (st, [], [])
  else if e.operation = "remove_restricted_zone" then
    match zoneKey e.parameters with
    | some k =>
      if dictHasKey k st.zones then
        ({ zones := dictRemove k st.zones },
         if ORBIT_DRAWER_QUEUE_NAME ∈ qs then
           [⟨ORBIT_DRAWER_QUEUE_NAME, clearZoneEvent k⟩]
         else [],
         [.zoneRemoved k])
      else (st, [], [])
    | none => (st, [], [])
  else
    if e.destination ∈ qs then
      (st, [⟨e.destination, e⟩], [.forwarded e.operation])
    else
      (st, [], [.routeFail e.destination])

/-- One pass of `SecurityMonitor._check_events_q` over a single event:
validate, and only on allow, route. -/
def handleEvent (qs : List String) (st : MonState) (e : Event) :
    MonState × List Sent × List LogEntry :=
  match checkEvent st e with
  | (true, logs) =>
    let r := proceed qs st e
    (r.1, r.2.1, logs ++ r.2.2)
  | (false, logs) => (st, [], logs)

/-- An `update_photo_map` event addressed to the map renderer. -/
def photoMapEvent (src : String) (ps : Param)
    (extra : Option (List (String × PyVal))) (sig : Option String) : Event :=
  { source := src
    destination := ORBIT_DRAWER_QUEUE_NAME
    operation := "update_photo_map"
    parameters := ps
    extra_parameters := extra
    signature := sig }

/-- Payloads of the shape the geofence guard accepts: a truthy tuple/list
with at least two elements. -/
def coordShaped : Param → Bool
  | .tup (_ :: _ :: _) => true
  | _ => false

theorem checkEvent_photoMap (st : MonState) (src : String) (lat lon : Rat)
    (rest : List Rat) (extra : Option (List (String × PyVal)))
    (sig : Option String) :
    checkEvent st (photoMapEvent src (.tup (lat :: lon :: rest)) extra sig) =
      match (zoneValues st).find? (fun z => z.contains lat lon) with
      | some z => (false, [.violation z.zone_id
          (userOf (photoMapEvent src (.tup (lat :: lon :: rest)) extra sig))])
      | none => (true, []) := by
  simp [checkEvent, photoMapEvent]

/-- C1: an `update_photo_map` message for the map renderer carrying a
coordinate pair is denied by the hub when some registered zone contains
the point (boundary inclusively), with a violation logged naming that
zone and the attributed user, and nothing is forwarded; when no zone
contains the point the message is forwarded to the renderer mailbox. -/
theorem hub_geofence_update_photo_map
    (qs : List String) (st : MonState) (src : String) (lat lon : Rat)
    (rest : List Rat) (extra : Option (List (String × PyVal)))
    (sig : Option String) (hq : ORBIT_DRAWER_QUEUE_NAME ∈ qs) :
    ((∃ z ∈ zoneValues st, z.contains lat lon = true) →
      (checkEvent st (photoMapEvent src (.tup (lat :: lon :: rest)) extra sig)).1 = false ∧
      (handleEvent qs st (photoMapEvent src (.tup (lat :: lon :: rest)) extra sig)).2.1 = [] ∧
      ∃ z ∈ zoneValues st, z.contains lat lon = true ∧
        (handleEvent qs st (photoMapEvent src (.tup (lat :: lon :: rest)) extra sig)).2.2 =
          [.violation z.zone_id (userOf (photoMapEvent src (.tup (lat :: lon :: rest)) extra sig))]) ∧
    ((∀ z ∈ zoneValues st, z.contains lat lon = false) →
      (checkEvent st (photoMapEvent src (.tup (lat :: lon :: rest)) extra sig)).1 = true ∧
      (handleEvent qs st (photoMapEvent src (.tup (lat :: lon :: rest)) extra sig)).2.1 =
        [⟨ORBIT_DRAWER_QUEUE_NAME, photoMapEvent src (.tup (lat :: lon :: rest)) extra sig⟩]) := by
  constructor
  · intro hex
    cases hfz : (zoneValues st).find? (fun z => z.contains lat lon) with
    | none =>
      exfalso
      obtain ⟨z, hz, hc⟩ := hex
      have := List.find?_eq_none.mp hfz z hz
      simp [hc] at this
    | some z =>
      have hzmem := List.mem_of_find?_eq_some hfz
      have hzc := List.find?_some hfz
      refine ⟨?_, ?_, z, hzmem, by simpa using hzc, ?_⟩ <;>
        simp [handleEvent, checkEvent_photoMap, hfz]
  · intro hall
    have hfz : (zoneValues st).find? (fun z => z.contains lat lon) = none :=
      List.find?_eq_none.mpr (fun z hz => by simp [hall z hz])
    have hchk : checkEvent st (photoMapEvent src (.tup (lat :: lon :: rest)) extra sig) = (true, []) := by
      simp [checkEvent_photoMap, hfz]
    refine ⟨by simp [hchk], ?_⟩
    simp only [handleEvent, hchk]
    simp [proceed, photoMapEvent, hq]

def zoneEx : RestrictedZone :=
  { zone_id := 1001, lat_bot_left := -40, lon_bot_left := -30,
    lat_top_right := -10, lon_top_right := -10,
    severity_level := 2, description := "" }

def stEx : MonState := ⟨[(1001, zoneEx)]⟩

def eEx : Event :=
  photoMapEvent "optics_control" (.tup [-25, -20])
    (some [("user", .str "alice")]) none

theorem hub_geofence_update_photo_map_witness :
    (∃ z ∈ zoneValues stEx, z.contains (-25) (-20) = true) ∧
    ((checkEvent stEx eEx).1 = false ∧
     (handleEvent [ORBIT_DRAWER_QUEUE_NAME] stEx eEx).2.1 = [] ∧
     ∃ z ∈ zoneValues stEx, z.contains (-25) (-20) = true ∧
       (handleEvent [ORBIT_DRAWER_QUEUE_NAME] stEx eEx).2.2 =
         [.violation z.zone_id (userOf eEx)]) :=
  ⟨by decide,
   (hub_geofence_update_photo_map [ORBIT_DRAWER_QUEUE_NAME] stEx
      "optics_control" (-25) (-20) [] (some [("user", .str "alice")]) none
      (by simp)).1 (by decide)⟩

/-- C8: an `update_photo_map` message for the map renderer whose payload
is not a tuple/list of at least two elements bypasses the geofence check
entirely and is forwarded to the renderer regardless of the registered
zones. -/
theorem hub_malformed_params_bypass
    (qs : List String) (st : MonState) (src : String) (ps : Param)
    (extra : Option (List (String × PyVal))) (sig : Option String)
    (hq : ORBIT_DRAWER_QUEUE_NAME ∈ qs) (hbad : coordShaped ps = false) :
    (checkEvent st (photoMapEvent src ps extra sig)).1 = true ∧
    (handleEvent qs st (photoMapEvent src ps extra sig)).2.1 =
      [⟨ORBIT_DRAWER_QUEUE_NAME, photoMapEvent src ps extra sig⟩] := by
  have hchk : checkEvent st (photoMapEvent src ps extra sig) = (true, []) := by
    cases ps with
    | pnone => simp [checkEvent, photoMapEvent]
    | num x => simp [checkEvent, photoMapEvent]
    | zone z => simp [checkEvent, photoMapEvent]
    | tup xs =>
      match xs with
      | [] => simp [checkEvent, photoMapEvent]
      | [x] => simp [checkEvent, photoMapEvent]
      | x :: y :: r => simp [coordShaped] at hbad
  refine ⟨by simp [hchk], ?_⟩
  simp only [handleEvent, hchk]
  simp [proceed, photoMapEvent, hq]

theorem hub_malformed_params_bypass_witness :
    (ORBIT_DRAWER_QUEUE_NAME ∈ [ORBIT_DRAWER_QUEUE_NAME] ∧
     coordShaped .pnone = false) ∧
    ((checkEvent stEx (photoMapEvent "optics_control" .pnone none none)).1 = true ∧
     (handleEvent [ORBIT_DRAWER_QUEUE_NAME] stEx
        (photoMapEvent "optics_control" .pnone none none)).2.1 =
       [⟨ORBIT_DRAWER_QUEUE_NAME, photoMapEvent "optics_control" .pnone none none⟩]) :=
  ⟨⟨by simp, by decide⟩,
   hub_malformed_params_bypass [ORBIT_DRAWER_QUEUE_NAME] stEx
     "optics_control" .pnone none none (by simp) (by decide)⟩

/-- A `remove_restricted_zone` event as the command gate builds it. -/
def removeZoneEvent (src dst : String) (zid : Rat)
    (extra : Option (List (String × PyVal))) (sig : Option String) : Event :=
  { source := src, destination := dst,
    operation := "remove_restricted_zone", parameters := .num zid,
    extra_parameters := extra, signature := sig }

/-- C9: removing an unregistered zone id is a silent no-op (zone dict
unchanged, no message sent anywhere); removing a registered zone id
deletes it and emits exactly one `clear_restricted_zone` message to the
renderer. -/
theorem hub_remove_zone
    (qs : List String) (st : MonState) (src dst : String) (zid : Rat)
    (extra : Option (List (String × PyVal))) (sig : Option String) :
    (dictHasKey zid st.zones = false →
      handleEvent qs st (removeZoneEvent src dst zid extra sig) = (st, [], [])) ∧
    (dictHasKey zid st.zones = true → ORBIT_DRAWER_QUEUE_NAME ∈ qs →
      handleEvent qs st (removeZoneEvent src dst zid extra sig) =
        ({ zones := dictRemove zid st.zones },
         [⟨ORBIT_DRAWER_QUEUE_NAME, clearZoneEvent zid⟩],
         [.zoneRemoved zid])) := by
  have hchk : checkEvent st (removeZoneEvent src dst zid extra sig) = (true, []) := by
    simp [checkEvent, removeZoneEvent]
  constructor
  · intro habs
    simp only [handleEvent, hchk]
    simp [proceed, removeZoneEvent, zoneKey, habs]
  · intro hhas hq
    simp only [handleEvent, hchk]
    simp [proceed, removeZoneEvent, zoneKey, hhas, hq]

theorem hub_remove_zone_witness :
    (dictHasKey 77 stEx.zones = false ∧
     handleEvent [ORBIT_DRAWER_QUEUE_NAME] stEx
       (removeZoneEvent "client_bob" "security_monitor" 77 none none) =
       (stEx, [], [])) ∧
    (dictHasKey 1001 stEx.zones = true ∧
     handleEvent [ORBIT_DRAWER_QUEUE_NAME] stEx
       (removeZoneEvent "client_bob" "security_monitor" 1001 none none) =
       ({ zones := dictRemove 1001 stEx.zones },
        [⟨ORBIT_DRAWER_QUEUE_NAME, clearZoneEvent 1001⟩],
        [.zoneRemoved 1001])) :=
  ⟨⟨by decide,
    (hub_remove_zone [ORBIT_DRAWER_QUEUE_NAME] stEx "client_bob"
       "security_monitor" 77 none none).1 (by decide)⟩,
   ⟨by decide,
    (hub_remove_zone [ORBIT_DRAWER_QUEUE_NAME] stEx "client_bob"
       "security_monitor" 1001 none none).2 (by decide) (by simp)⟩⟩

/-! ## Priority capture scheduler (`optics_control.py`) -/

/-- A pending capture request, as `_handle_photo_request` stores it. -/
structure PhotoRequest where
  source : String
  timestamp : Param
  priority : Rat
  signature : Option String
deriving DecidableEq

/-- State of `OpticsControl` relevant to the scheduler. -/
structure OpticsState where
  photo_queue : List PhotoRequest
  photo_interval : Rat
  last_photo_time : Rat
  is_busy : Bool
deriving DecidableEq

/-- Constructor-time state of the scheduler. -/
def opticsInit : OpticsState :=
  { photo_queue := [], photo_interval := 2, last_photo_time := 0, is_busy := false }

/-- The priority of a capture-request event:
`extra_parameters["priority"]` when the mapping is truthy and has the
key, else 1.  (A non-numeric priority value would make the later sort
raise a type error; no component of this system ever produces one, and
the claim theorems restrict to integer-or-absent priorities.) -/
def getPriority (e : Event) : Rat :=
  match e.extra_parameters with
  | none => 1
  | some ps =>
    match ps.lookup "priority" with
    | some (.num n) => n
    | some (.str _) => 1
    | none => 1

/-- `prioOk e` holds when the priority entry of `e`, if any, is numeric
(the domain on which the embedding of the sort is faithful). -/
def prioOk (e : Event) : Bool :=
  match e.extra_parameters with
  | none => true
  | some ps =>
    match ps.lookup "priority" with
    | some (.num _) => true
    | some (.str _) => false
    | none => true

/-- The dict `_handle_photo_request` appends to the queue. -/
def mkPhotoRequest (e : Event) : PhotoRequest :=
  { source := e.source
    timestamp := if e.parameters.isTruthy then e.parameters else .pnone
    priority := getPriority e
    signature := e.signature }

/-- Insert a request after every element of greater-or-equal priority;
for a sorted list this is where Python's stable sort places a newly
appended element. -/
def insertDesc (r : PhotoRequest) : List PhotoRequest → List PhotoRequest
  | [] => [r]
  | x :: xs => if x.priority < r.priority then r :: x :: xs else x :: insertDesc r xs

/-- `list.sort(key=lambda x: x["priority"], reverse=True)`: Python's sort
is stable, and `reverse=True` preserves the relative order of equal keys;
the unique stable descending sort is insertion sort processing elements
in list order. -/
def sortDesc (l : List PhotoRequest) : List PhotoRequest :=
  l.foldl (fun acc r => insertDesc r acc) []

/-- `OpticsControl._handle_photo_request`: append, then stable-sort the
queue by descending priority. -/
def handlePhotoRequest (st : OpticsState) (e : Event) : OpticsState :=
  { st with photo_queue := sortDesc (st.photo_queue ++ [mkPhotoRequest e]) }

/-- `OpticsControl._process_next_photo_request`: pop the head request
(`pop(0)`), stamp the dispatch time, and emit a capture request to the
camera routed through the security monitor. -/
def processNextPhotoRequest (st : OpticsState) (now : Rat) :
    OpticsState × List Sent :=
  match st.photo_queue with
  | [] => (st, [])
  | r :: rest =>
    ({ st with photo_queue := rest, last_photo_time := now },
     [⟨SECURITY_MONITOR_QUEUE_NAME,
       { source := OPTICS_CONTROL_QUEUE_NAME
         destination := CAMERA_QUEUE_NAME
         operation := "request_photo"
         parameters := r.timestamp
         extra_parameters := some [("priority", PyVal.num r.priority)]
         signature := r.signature }⟩])

/-- The order in which repeated `processNextPhotoRequest` calls dispatch
a queue: each call removes index 0, so draining yields the list in
order. -/
def drainOrder : List PhotoRequest → List PhotoRequest
  | [] => []
  | r :: rest => r :: drainOrder rest

/-- The scheduler queue after enqueuing a sequence of capture-request
events starting from the fresh state. -/
def queueAfter (es : List Event) : List PhotoRequest :=
  (es.foldl handlePhotoRequest opticsInit).photo_queue

/-- Descending-priority ordering of a request list. -/
def SortedDesc (l : List PhotoRequest) : Prop :=
  l.Pairwise (fun a b => b.priority ≤ a.priority)

theorem mem_insertDesc {y r : PhotoRequest} {l : List PhotoRequest} :
    y ∈ insertDesc r l ↔ y = r ∨ y ∈ l := by
  induction l with
  | nil => simp [insertDesc]
  | cons x xs ih =>
    simp only [insertDesc]
    split
    · simp only [List.mem_cons]
    · simp only [List.mem_cons, ih]
      tauto

theorem insertDesc_sorted (r : PhotoRequest) (l : List PhotoRequest)
    (h : SortedDesc l) : SortedDesc (insertDesc r l) := by
  induction l with
  | nil => simp [insertDesc, SortedDesc]
  | cons x xs ih =>
    rw [SortedDesc, List.pairwise_cons] at h
    obtain ⟨hx, hxs⟩ := h
    simp only [insertDesc]
    split
    · rename_i hlt
      rw [SortedDesc, List.pairwise_cons]
      refine ⟨?_, List.pairwise_cons.mpr ⟨hx, hxs⟩⟩
      intro y hy
      rcases List.mem_cons.mp hy with rfl | hy
      · exact le_of_lt hlt
      · exact le_trans (hx y hy) (le_of_lt hlt)
    · rename_i hge
      rw [SortedDesc, List.pairwise_cons]
      refine ⟨?_, ih hxs⟩
      intro y hy
      rcases mem_insertDesc.mp hy with rfl | hy
      · exact not_lt.mp hge
      · exact hx y hy

/-- The priority-`p` subsequence: used to state sort stability. -/
def filterP (l : List PhotoRequest) (p : Rat) : List PhotoRequest :=
  l.filter (fun r => decide (r.priority = p))

theorem filterP_nil (p : Rat) : filterP [] p = [] := rfl

theorem filterP_cons (x : PhotoRequest) (xs : List PhotoRequest) (p : Rat) :
    filterP (x :: xs) p =
      (if x.priority = p then [x] else []) ++ filterP xs p := by
  by_cases hxp : x.priority = p <;> simp [filterP, List.filter_cons, hxp]

theorem insertDesc_filterP_ne (r : PhotoRequest) (l : List PhotoRequest)
    (p : Rat) (hr : r.priority ≠ p) :
    filterP (insertDesc r l) p = filterP l p := by
  induction l with
  | nil => simp [insertDesc, filterP, hr]
  | cons x xs ih =>
    simp only [insertDesc]
    split
    · rw [filterP_cons (p := p), filterP_cons (p := p)]
      simp [hr]
    · rw [filterP_cons (p := p), filterP_cons (p := p), ih]

theorem insertDesc_filterP_eq (r : PhotoRequest) (l : List PhotoRequest)
    (h : SortedDesc l) (p : Rat) (hr : r.priority = p) :
    filterP (insertDesc r l) p = filterP l p ++ [r] := by
  induction l with
  | nil => simp [insertDesc, filterP, hr]
  | cons x xs ih =>
    rw [SortedDesc, List.pairwise_cons] at h
    obtain ⟨hx, hxs⟩ := h
    simp only [insertDesc]
    split
    · rename_i hlt
      have hnone : filterP (x :: xs) p = [] := by
        rw [filterP, List.filter_eq_nil_iff]
        intro y hy
        simp only [decide_eq_true_eq]
        intro hyp
        have hle : y.priority ≤ x.priority := by
          rcases List.mem_cons.mp hy with rfl | hy
          · exact le_refl _
          · exact hx y hy
        have hlt2 := lt_of_le_of_lt hle hlt
        rw [hyp, hr] at hlt2
        exact lt_irrefl p hlt2
      rw [filterP_cons (p := p), hnone]
      simp [hr]
    · rw [filterP_cons (p := p), ih hxs, filterP_cons (p := p), List.append_assoc]

theorem insertDesc_filterP (r : PhotoRequest) (l : List PhotoRequest)
    (h : SortedDesc l) (p : Rat) :
    filterP (insertDesc r l) p =
      filterP l p ++ (if r.priority = p then [r] else []) := by
  by_cases hr : r.priority = p
  · rw [insertDesc_filterP_eq r l h p hr, if_pos hr]
  · rw [insertDesc_filterP_ne r l p hr, if_neg hr, List.append_nil]

theorem sortDesc_append_singleton (q : List PhotoRequest) (r : PhotoRequest) :
    sortDesc (q ++ [r]) = insertDesc r (sortDesc q) := by
  simp [sortDesc, List.foldl_append]

theorem insertDesc_eq_append (r : PhotoRequest) (acc : List PhotoRequest)
    (hall : ∀ z ∈ acc, ¬ z.priority < r.priority) :
    insertDesc r acc = acc ++ [r] := by
  induction acc with
  | nil => rfl
  | cons x xs ih =>
    simp only [insertDesc]
    rw [if_neg (hall x (List.mem_cons_self x xs))]
    rw [ih (fun z hz => hall z (List.mem_cons_of_mem x hz))]
    rfl

theorem foldl_insert_of_sorted (l acc : List PhotoRequest)
    (h : SortedDesc (acc ++ l)) :
    l.foldl (fun a r => insertDesc r a) acc = acc ++ l := by
  induction l generalizing acc with
  | nil => simp
  | cons y ys ih =>
    have hy : insertDesc y acc = acc ++ [y] := by
      apply insertDesc_eq_append
      intro z hz
      have hle := (List.pairwise_append.mp h).2.2 z hz y (List.mem_cons_self y ys)
      exact not_lt.mpr hle
    rw [List.foldl_cons, hy, ih (acc ++ [y])]
    · simp
    · simpa [List.append_assoc] using h

/-- An already descending-sorted queue is a fixed point of the sort. -/
theorem sortDesc_sorted_id (l : List PhotoRequest) (h : SortedDesc l) :
    sortDesc l = l := by
  simpa using foldl_insert_of_sorted l [] (by simpa using h)

theorem enqueue_fold_inv (es : List Event) (q : List PhotoRequest)
    (h : SortedDesc q) :
    SortedDesc (es.foldl (fun acc e => sortDesc (acc ++ [mkPhotoRequest e])) q) ∧
    ∀ p, filterP (es.foldl (fun acc e => sortDesc (acc ++ [mkPhotoRequest e])) q) p =
      filterP q p ++ filterP (es.map mkPhotoRequest) p := by
  induction es generalizing q with
  | nil => simp [filterP, h]
  | cons e es ih =>
    have hstep : sortDesc (q ++ [mkPhotoRequest e]) = insertDesc (mkPhotoRequest e) q := by
      rw [sortDesc_append_singleton, sortDesc_sorted_id q h]
    have hsorted := insertDesc_sorted (mkPhotoRequest e) q h
    rw [List.foldl_cons, hstep]
    obtain ⟨ih1, ih2⟩ := ih (insertDesc (mkPhotoRequest e) q) hsorted
    refine ⟨ih1, fun p => ?_⟩
    rw [ih2 p, insertDesc_filterP _ _ h p, List.map_cons, filterP_cons,
      List.append_assoc]

theorem queueAfter_eq (es : List Event) (st : OpticsState) :
    (es.foldl handlePhotoRequest st).photo_queue =
      es.foldl (fun acc e => sortDesc (acc ++ [mkPhotoRequest e])) st.photo_queue := by
  induction es generalizing st with
  | nil => rfl
  | cons e es ih => rw [List.foldl_cons, List.foldl_cons, ih]; rfl

theorem drainOrder_eq (l : List PhotoRequest) : drainOrder l = l := by
  induction l with
  | nil => rfl
  | cons x xs ih => rw [drainOrder, ih]

/-- C4: dispatching repeatedly pops the queue head, so after enqueuing any
sequence of capture-request events the dispatch order is the queue itself:
its priorities are non-increasing, the priority-`p` subsequence equals the
priority-`p` subsequence of the arrival order for every `p` (stability:
equal priorities dispatch in arrival order, and every request dispatches
exactly once), and the queue head always carries the maximum pending
priority. -/
theorem scheduler_priority_order (es : List Event)
    (hp : ∀ e ∈ es, prioOk e = true) :
    SortedDesc (drainOrder (queueAfter es)) ∧
    (∀ p, filterP (drainOrder (queueAfter es)) p =
      filterP (es.map mkPhotoRequest) p) ∧
    (∀ r ∈ queueAfter es, ∀ x ∈ (queueAfter es).head?, r.priority ≤ x.priority) := by
  have hq : queueAfter es =
      es.foldl (fun acc e => sortDesc (acc ++ [mkPhotoRequest e])) [] := by
    rw [queueAfter, queueAfter_eq]
    rfl
  obtain ⟨h1, h2⟩ := enqueue_fold_inv es [] (by simp [SortedDesc])
  rw [drainOrder_eq]
  refine ⟨hq ▸ h1, fun p => ?_, ?_⟩
  · rw [hq, h2 p, filterP_nil, List.nil_append]
  · intro r hr x hx
    have hsorted : SortedDesc (queueAfter es) := hq ▸ h1
    cases hql : queueAfter es with
    | nil => rw [hql] at hx; simp at hx
    | cons y ys =>
      rw [hql] at hx
      simp only [List.head?_cons, Option.mem_def, Option.some.injEq] at hx
      subst hx
      rw [hql] at hr hsorted
      rw [SortedDesc, List.pairwise_cons] at hsorted
      rcases List.mem_cons.mp hr with rfl | hr
      · exact le_refl _
      · exact hsorted.1 r hr

/-- A capture-request event with an explicit priority. -/
def photoReqEvent (u : String) (pr : Rat) : Event :=
  { source := "client_" ++ u
    destination := OPTICS_CONTROL_QUEUE_NAME
    operation := "request_photo"
    parameters := .pnone
    extra_parameters := some [("user", .str u), ("priority", .num pr)]
    signature := some ("photo_" ++ u) }

def esEx : List Event :=
  [photoReqEvent "a" 1, photoReqEvent "b" 5, photoReqEvent "c" 1]

theorem scheduler_priority_order_witness :
    (∀ e ∈ esEx, prioOk e = true) ∧
    SortedDesc (drainOrder (queueAfter esEx)) ∧
    filterP (drainOrder (queueAfter esEx)) 1 =
      filterP (esEx.map mkPhotoRequest) 1 :=
  ⟨by decide, (scheduler_priority_order esEx (by decide)).1,
   (scheduler_priority_order esEx (by decide)).2.1 1⟩

/-- `OpticsControl._handle_set_interval`: a truthy numeric payload inside
the inclusive bounds 0.5 - 30.0 replaces the interval; a truthy numeric
payload outside them is rejected with an error log; every other payload
(including the number 0, which is falsy) is silently ignored. -/
def handleSetInterval (st : OpticsState) (e : Event) :
    OpticsState × List LogEntry :=
  if e.parameters.isTruthy && e.parameters.isNumber then
    if (0.5 : Rat) ≤ e.parameters.toRat ∧ e.parameters.toRat ≤ 30 then
      ({ st with photo_interval := e.parameters.toRat },
       [.intervalChanged st.photo_interval e.parameters.toRat])
    else (st, [.intervalRejected e.parameters.toRat])
  else (st, [])

/-- A `set_photo_interval` message. -/
def setIntervalEvent (v : Param) : Event :=
  { source := "client_a"
    destination := OPTICS_CONTROL_QUEUE_NAME
    operation := "set_photo_interval"
    parameters := v }

/-- C5 counterexample: the payload 0 is numeric and outside [0.5, 30.0],
yet the handler leaves the interval unchanged and logs nothing (the
truthiness guard short-circuits on 0), contradicting the claim that an
error is logged for every out-of-range numeric payload. -/
theorem scheduler_interval_zero_counterexample :
    Param.isNumber (Param.num 0) = true ∧
    ¬ ((0.5 : Rat) ≤ 0 ∧ (0 : Rat) ≤ 30) ∧
    handleSetInterval opticsInit (setIntervalEvent (.num 0)) =
      (opticsInit, []) := by
  refine ⟨rfl, by norm_num, ?_⟩
  simp [handleSetInterval, setIntervalEvent, Param.isTruthy]

/-- C5 (amended): a nonzero numeric payload outside the inclusive range
[0.5, 30.0] leaves the interval unchanged and logs an error; the numeric
payload 0 (also out of range) leaves the interval unchanged but logs
nothing; an in-range numeric payload such as 5.0 replaces the interval. -/
theorem scheduler_interval_bounds (st : OpticsState) (e : Event) (x : Rat)
    (hx : e.parameters = .num x) :
    (x ≠ 0 → ¬ ((0.5 : Rat) ≤ x ∧ x ≤ 30) →
      handleSetInterval st e = (st, [.intervalRejected x])) ∧
    (x = 0 → handleSetInterval st e = (st, [])) ∧
    ((0.5 : Rat) ≤ x → x ≤ 30 →
      handleSetInterval st e =
        ({ st with photo_interval := x }, [.intervalChanged st.photo_interval x])) := by
  refine ⟨?_, ?_, ?_⟩
  · intro hnz hout
    simp [handleSetInterval, hx, Param.isTruthy, Param.isNumber, Param.toRat, hnz, hout]
  · intro hz
    subst hz
    simp [handleSetInterval, hx, Param.isTruthy]
  · intro hlo hhi
    have hnz : x ≠ 0 := by
      intro h0
      rw [h0] at hlo
      norm_num at hlo
    simp [handleSetInterval, hx, Param.isTruthy, Param.isNumber, Param.toRat, hnz, hlo, hhi]

theorem scheduler_interval_bounds_witness :
    ((setIntervalEvent (.num 31)).parameters = Param.num 31 ∧
     handleSetInterval opticsInit (setIntervalEvent (.num 31)) =
       (opticsInit, [.intervalRejected 31])) ∧
    (handleSetInterval opticsInit (setIntervalEvent (.num 5)) =
      ({ opticsInit with photo_interval := 5 },
       [.intervalChanged opticsInit.photo_interval 5])) :=
  ⟨⟨rfl, (scheduler_interval_bounds opticsInit (setIntervalEvent (.num 31)) 31 rfl).1
      (by norm_num) (by norm_num)⟩,
   (scheduler_interval_bounds opticsInit (setIntervalEvent (.num 5)) 5 rfl).2.2
     (by norm_num) (by norm_num)⟩

/-! ## Append-only log (`database.py`)

The log file is a byte sequence (`List Nat`, each entry one byte).  A
record is `[uint32 label-length][label bytes][uint32 index][float64
lat][float64 lon]`, little-endian.  The recovery scan never interprets
the two float fields, so records carry their 16 raw payload bytes
(`tl16`); the writer passes them in as an argument. -/

/-- `struct.pack("<I", n)`: little-endian 4-byte encoding.  Faithful for
`n < 2 ^ 32`; for larger values `struct.pack` raises, which the callers
below model explicitly. -/
def pack32 (n : Nat) : List Nat :=
  [n % 256, n / 256 % 256, n / 65536 % 256, n / 16777216 % 256]

/-- `struct.unpack("<I", bs)` of a 4-byte buffer. -/
def unpack32 : List Nat → Nat
  | [a, b, c, d] => a + 256 * b + 65536 * c + 16777216 * d
  | _ => 0

theorem unpack32_pack32 (n : Nat) (h : n < 2 ^ 32) :
    unpack32 (pack32 n) = n := by
  simp only [unpack32, pack32]
  omega

/-- The scan loop of `Database._load_last_index`, carrying the last
successfully parsed index.  An empty header read breaks cleanly; a
nonempty header of fewer than 4 bytes makes `RECORD_HEADER.unpack` raise
(`none`).  The label bytes are skipped unchecked.  An empty body read
breaks cleanly; a nonempty body of fewer than 20 bytes makes
`RECORD_BODY.unpack` raise (`none`). -/
def scanRecords : List Nat → Nat → Option Nat
  | [], a => some a
  | [_], _ => none
  | [_, _], _ => none
  | [_, _, _], _ => none
  | b0 :: b1 :: b2 :: b3 :: bs, a =>
    let rest := bs.drop (unpack32 [b0, b1, b2, b3])
    if rest.length = 0 then some a
    else if rest.length < 20 then none
    else scanRecords (rest.drop 20) (unpack32 (rest.take 4))
termination_by bs => bs.length
decreasing_by
  simp only [List.length_drop, List.length_cons]
  omega

/-- `Database._load_last_index`: 0 when the file does not exist,
otherwise the last parsed index plus one (starting from 0); `none` when
the scan raises on a malformed buffer. -/
def loadLastIndex (file : Option (List Nat)) : Option Nat :=
  match file with
  | none => some 0
  | some bs => (scanRecords bs 0).map (· + 1)

/-- One stored record: label bytes, index, and the 16 payload bytes of
the two packed float64 coordinates. -/
def packRecord (lbl : List Nat) (i : Nat) (tl : List Nat) : List Nat :=
  pack32 lbl.length ++ lbl ++ pack32 i ++ tl

theorem scan_append (lbl : List Nat) (i : Nat) (tl rest : List Nat) (a : Nat)
    (hl : lbl.length < 2 ^ 32) (hi : i < 2 ^ 32) (ht : tl.length = 16) :
    scanRecords (packRecord lbl i tl ++ rest) a = scanRecords rest i := by
  have h1 : unpack32 [lbl.length % 256, lbl.length / 256 % 256,
      lbl.length / 65536 % 256, lbl.length / 16777216 % 256] = lbl.length :=
    unpack32_pack32 _ hl
  have h2 : unpack32 [i % 256, i / 256 % 256, i / 65536 % 256,
      i / 16777216 % 256] = i :=
    unpack32_pack32 _ hi
  simp only [packRecord, pack32, List.cons_append, List.nil_append,
    List.append_assoc]
  rw [scanRecords.eq_5]
  simp only [h1, List.drop_left]
  rw [show ((i % 256 : Nat) :: i / 256 % 256 :: i / 65536 % 256 ::
      i / 16777216 % 256 :: (tl ++ rest)) = pack32 i ++ (tl ++ rest) from rfl]
  have hlen : (pack32 i ++ (tl ++ rest)).length = 20 + rest.length := by
    simp [pack32, ht]
    omega
  rw [if_neg (by rw [hlen]; omega), if_neg (by rw [hlen]; omega)]
  have htake : (pack32 i ++ (tl ++ rest)).take 4 = pack32 i :=
    List.take_left' rfl
  have hdrop : (pack32 i ++ (tl ++ rest)).drop 20 = rest := by
    rw [← List.append_assoc]
    exact List.drop_left' (by simp [pack32, ht])
  rw [htake, hdrop, unpack32_pack32 _ hi]

/-- A parsed record of the log file. -/
structure LogRec where
  lbl : List Nat
  idx : Nat
  tl16 : List Nat

/-- Byte image of a record sequence. -/
def recsBytes : List LogRec → List Nat
  | [] => []
  | r :: rs => packRecord r.lbl r.idx r.tl16 ++ recsBytes rs

/-- A record the writer can actually produce: label length and index fit
`struct.pack("<I", ...)` and the body payload is the 16 bytes of two
packed float64 values. -/
def WFRec (r : LogRec) : Prop :=
  r.lbl.length < 2 ^ 32 ∧ r.idx < 2 ^ 32 ∧ r.tl16.length = 16

/-- The index the scan ends on after a record sequence, starting from
accumulator `a`. -/
def lastIdx : Nat → List LogRec → Nat
  | a, [] => a
  | _, r :: rs => lastIdx r.idx rs

theorem scan_recs (rs : List LogRec) (suffix : List Nat) (a : Nat)
    (h : ∀ r ∈ rs, WFRec r) :
    scanRecords (recsBytes rs ++ suffix) a = scanRecords suffix (lastIdx a rs) := by
  induction rs generalizing a with
  | nil => simp [recsBytes, lastIdx]
  | cons r rs ih =>
    obtain ⟨h1, h2, h3⟩ := h r (List.mem_cons_self r rs)
    rw [recsBytes, lastIdx, List.append_assoc, scan_append _ _ _ _ _ h1 h2 h3]
    exact ih r.idx (fun x hx => h x (List.mem_cons_of_mem r hx))

/-- Decimal ASCII digits of `n`, as the f-string `photo{i}` renders the
index. -/
def decDigits (n : Nat) : List Nat :=
  if h : n < 10 then [48 + n]
  else decDigits (n / 10) ++ [48 + n % 10]
termination_by n
decreasing_by omega

theorem decDigits_length_le (k : Nat) :
    ∀ n, n < 10 ^ (k + 1) → (decDigits n).length ≤ k + 1 := by
  induction k with
  | zero =>
    intro n hn
    rw [decDigits, dif_pos (by simpa using hn)]
    simp
  | succ k ih =>
    intro n hn
    rw [decDigits]
    by_cases h : n < 10
    · rw [dif_pos h]
      simp
    · rw [dif_neg h]
      have hdiv : n / 10 < 10 ^ (k + 1) := by
        rw [Nat.div_lt_iff_lt_mul (by norm_num)]
        calc n < 10 ^ (k + 2) := hn
          _ = 10 ^ (k + 1) * 10 := by ring
      have hlen := ih (n / 10) hdiv
      simp only [List.length_append, List.length_cons, List.length_nil]
      omega

/-- The record label `f"photo{i}"`, as ASCII bytes. -/
def photoLabel (i : Nat) : List Nat :=
  [112, 104, 111, 116, 111] ++ decDigits i

theorem photoLabel_length_lt (i : Nat) (h : i < 2 ^ 32) :
    (photoLabel i).length < 2 ^ 32 := by
  have h10 : i < 10 ^ 10 := lt_of_lt_of_le h (by norm_num)
  have hlen := decDigits_length_le 9 i h10
  simp only [photoLabel, List.length_append, List.length_cons, List.length_nil]
  omega

/-- In-memory state of the `Database` component: the log file (absent
before the first write) and the next sequence index `self.i`. -/
structure DbState where
  file : Option (List Nat)
  i : Nat
deriving DecidableEq

/-- `Database._write`: append `[u32 len(label)][label][u32 index][lat]
[lon]` and increment the counter.  `tl` is the 16 bytes of the two packed
float64 coordinates.  When the index does not fit `struct.pack("<I", _)`
the pack raises (`none`); the header and label bytes the source has
already written before the failing body pack are not modelled, since
every claim concerns the index assignment, which never happens on that
path. -/
def dbWrite (st : DbState) (tl : List Nat) : Option DbState :=
  if st.i < 2 ^ 32 then
    some { file := some ((st.file.getD []) ++ packRecord (photoLabel st.i) st.i tl)
           i := st.i + 1 }
  else none

/-- Constructor-time recovery: `self.i = self._load_last_index()`. -/
def dbInit (file : Option (List Nat)) : Option DbState :=
  (loadLastIndex file).map fun n => { file := file, i := n }

/-- `n` consecutive writes; the write at index `k` stores the payload
bytes `tls k`. -/
def writeN (tls : Nat → List Nat) : Nat → DbState → Option DbState
  | 0, st => some st
  | n + 1, st =>
    match dbWrite st (tls st.i) with
    | some st' => writeN tls n st'
    | none => none

theorem recsBytes_append (rs : List LogRec) (r : LogRec) :
    recsBytes (rs ++ [r]) = recsBytes rs ++ packRecord r.lbl r.idx r.tl16 := by
  induction rs with
  | nil => simp [recsBytes]
  | cons x xs ih => simp [recsBytes, ih, List.append_assoc]

theorem lastIdx_append (a : Nat) (rs : List LogRec) (r : LogRec) :
    lastIdx a (rs ++ [r]) = r.idx := by
  induction rs generalizing a with
  | nil => simp [lastIdx]
  | cons x xs ih => simp [lastIdx, ih]

/-- Representation invariant tying a database state to the record
sequence of its file. -/
def DbInv (st : DbState) : Prop :=
  (st.i = 0 ∧ st.file = none) ∨
  (1 ≤ st.i ∧ ∃ rs : List LogRec, (∀ r ∈ rs, WFRec r) ∧
    rs.map LogRec.idx = List.range st.i ∧
    lastIdx 0 rs = st.i - 1 ∧
    st.file = some (recsBytes rs))

theorem writeN_inv (tls : Nat → List Nat) (h16 : ∀ k, (tls k).length = 16) :
    ∀ (n : Nat) (st : DbState), DbInv st → st.i + n ≤ 2 ^ 32 →
    ∃ st', writeN tls n st = some st' ∧ DbInv st' ∧ st'.i = st.i + n := by
  intro n
  induction n with
  | zero => exact fun st hst _ => ⟨st, rfl, hst, rfl⟩
  | succ n ih =>
    intro st hst hbound
    have hi : st.i < 2 ^ 32 := by omega
    have hw : dbWrite st (tls st.i) =
        some ⟨some ((st.file.getD []) ++ packRecord (photoLabel st.i) st.i (tls st.i)),
              st.i + 1⟩ := by
      rw [dbWrite, if_pos hi]
    have hwfNew : WFRec ⟨photoLabel st.i, st.i, tls st.i⟩ :=
      ⟨photoLabel_length_lt st.i hi, hi, h16 st.i⟩
    have hinv1 : DbInv ⟨some ((st.file.getD []) ++
        packRecord (photoLabel st.i) st.i (tls st.i)), st.i + 1⟩ := by
      rcases hst with ⟨h0, hf⟩ | ⟨h1, rs, hwf, hmap, hlast, hfile⟩
      · right
        refine ⟨show 1 ≤ st.i + 1 by omega, [⟨photoLabel st.i, st.i, tls st.i⟩], ?_, ?_, ?_, ?_⟩
        · intro r hr
          rw [List.mem_singleton] at hr
          subst hr
          exact hwfNew
        · simp [h0, List.range_succ]
        · simp [lastIdx]
        · simp [hf, recsBytes]
      · right
        refine ⟨show 1 ≤ st.i + 1 by omega, rs ++ [⟨photoLabel st.i, st.i, tls st.i⟩], ?_, ?_, ?_, ?_⟩
        · intro r hr
          rcases List.mem_append.mp hr with hr | hr
          · exact hwf r hr
          · rw [List.mem_singleton] at hr
            subst hr
            exact hwfNew
        · rw [List.map_append, hmap]
          simp [List.range_succ]
        · rw [lastIdx_append]
          simp
        · rw [hfile, recsBytes_append]
          simp
    rw [writeN, hw]
    obtain ⟨st', hwn, hinv', hi'⟩ := ih _ hinv1 (show st.i + 1 + n ≤ 2 ^ 32 by omega)
    refine ⟨st', hwn, hinv', ?_⟩
    have hi2 : st'.i = st.i + 1 + n := hi'
    omega

/-- C10: recovery over an existing but empty log file returns next index
1 (the scan parses no record and returns `last_i + 1` with `last_i = 0`),
while a missing file returns 0; consequently, after a restart over an
existing empty file every subsequent write uses an index of at least 1,
so sequence index 0 is never assigned. -/
theorem recovery_empty_file :
    loadLastIndex (some []) = some 1 ∧
    loadLastIndex none = some 0 ∧
    dbInit (some []) = some ⟨some [], 1⟩ ∧
    ∀ tl, dbWrite ⟨some [], 1⟩ tl =
      some ⟨some (packRecord (photoLabel 1) 1 tl), 2⟩ := by
  have hscan : scanRecords [] 0 = some 0 := by rw [scanRecords]
  refine ⟨by simp [loadLastIndex, hscan], by simp [loadLastIndex], ?_, ?_⟩
  · simp [dbInit, loadLastIndex, hscan]
  · intro tl
    rw [dbWrite, if_pos (by norm_num)]
    simp

/-- The byte image of one well-formed record (label `photo0`, index 0,
zero coordinate payload) followed by a single stray byte: an incomplete
one-byte label-length header fragment. -/
def fragFileEx : List Nat :=
  packRecord (photoLabel 0) 0 (List.replicate 16 0) ++ [7]

/-- C2 counterexample: on a log consisting of one well-formed record and
a short (one-byte) trailing header fragment, the recovery scan does not
treat the fragment as end-of-file: `RECORD_HEADER.unpack` raises on the
nonempty short read, so recovery aborts instead of returning the last
parsed index plus one. -/
theorem recovery_fragment_counterexample :
    loadLastIndex (some fragFileEx) = none ∧
    loadLastIndex (some fragFileEx) ≠ some 1 := by
  have hd : decDigits 0 = [48] := by rw [decDigits, dif_pos (by norm_num)]
  have hscan : scanRecords fragFileEx 0 = none := by
    rw [show fragFileEx = packRecord (photoLabel 0) 0 (List.replicate 16 0) ++ [7] from rfl]
    rw [scan_append _ _ _ _ _ (by simp [photoLabel, hd]) (by norm_num) (by simp)]
    rw [scanRecords]
  exact ⟨by simp [loadLastIndex, hscan], by simp [loadLastIndex, hscan]⟩

/-- C2 (amended): the recovery scan treats the trailing fragment as a
clean end-of-file exactly when the fragment is empty, or consists of a
complete 4-byte label-length header followed by at most label-length
bytes (possibly truncated label bytes and nothing after, so the body read
returns no bytes); recovery then returns the last fully parsed index plus
one.  A nonempty fragment of 1-3 header bytes, or a complete header and
label followed by a nonempty body fragment of 1-19 bytes, instead makes
`struct.unpack` raise, aborting recovery. -/
theorem recovery_clean_fragment (rs : List LogRec)
    (h : ∀ r ∈ rs, WFRec r) :
    loadLastIndex (some (recsBytes rs)) = some (lastIdx 0 rs + 1) ∧
    ∀ (L : Nat) (lbl : List Nat), L < 2 ^ 32 → lbl.length ≤ L →
      loadLastIndex (some (recsBytes rs ++ (pack32 L ++ lbl))) =
        some (lastIdx 0 rs + 1) := by
  constructor
  · rw [loadLastIndex, show recsBytes rs = recsBytes rs ++ [] by simp,
      scan_recs rs [] 0 h]
    rw [scanRecords]
    rfl
  · intro L lbl hL hlen
    rw [loadLastIndex, scan_recs rs (pack32 L ++ lbl) 0 h]
    have hu : unpack32 [L % 256, L / 256 % 256, L / 65536 % 256,
        L / 16777216 % 256] = L := unpack32_pack32 _ hL
    simp only [pack32, List.cons_append, List.nil_append]
    rw [scanRecords.eq_5, hu, List.drop_eq_nil_of_le hlen]
    simp

def recEx : LogRec := ⟨photoLabel 0, 0, List.replicate 16 0⟩

theorem recovery_clean_fragment_witness :
    (∀ r ∈ [recEx], WFRec r) ∧
    loadLastIndex (some (recsBytes [recEx])) = some (lastIdx 0 [recEx] + 1) ∧
    ((9 : Nat) < 2 ^ 32 ∧ ([1, 2] : List Nat).length ≤ 9 ∧
      loadLastIndex (some (recsBytes [recEx] ++ (pack32 9 ++ [1, 2]))) =
        some (lastIdx 0 [recEx] + 1)) := by
  have hd : decDigits 0 = [48] := by rw [decDigits, dif_pos (by norm_num)]
  have hwf : ∀ r ∈ [recEx], WFRec r := by
    intro r hr
    rw [List.mem_singleton] at hr
    subst hr
    exact ⟨by simp [recEx, photoLabel, hd], by norm_num [recEx], by simp [recEx]⟩
  exact ⟨hwf, (recovery_clean_fragment [recEx] hwf).1,
    by norm_num, by norm_num,
    (recovery_clean_fragment [recEx] hwf).2 9 [1, 2] (by norm_num) (by norm_num)⟩

theorem writeN_overflow (tls : Nat → List Nat) :
    ∀ (n : Nat) (st : DbState), st.i ≤ 2 ^ 32 → 2 ^ 32 < st.i + n →
    writeN tls n st = none := by
  intro n
  induction n with
  | zero => intro st h1 h2; omega
  | succ n ih =>
    intro st h1 h2
    by_cases hi : st.i < 2 ^ 32
    · have hw : dbWrite st (tls st.i) =
          some ⟨some ((st.file.getD []) ++ packRecord (photoLabel st.i) st.i (tls st.i)),
                st.i + 1⟩ := by
        rw [dbWrite, if_pos hi]
      rw [writeN, hw]
      exact ih _ (show st.i + 1 ≤ 2 ^ 32 by omega)
        (show 2 ^ 32 < st.i + 1 + n by omega)
    · rw [writeN, dbWrite, if_neg hi]

/-- C3 counterexample: performing `2 ^ 32 + 1` writes from a fresh state
does not assign indexes `0 .. N-1`: the final write's
`struct.pack("<I", index)` raises at index `2 ^ 32` instead of storing a
record, so the claim fails for `N = 2 ^ 32 + 1`. -/
theorem write_roundtrip_counterexample :
    writeN (fun _ => List.replicate 16 0) (2 ^ 32 + 1) ⟨none, 0⟩ = none :=
  writeN_overflow _ _ _ (by norm_num) (by norm_num)

/-- C3 (amended): for every `N` with `1 ≤ N ≤ 2 ^ 32`, performing `N`
writes starting from no log file assigns sequence indexes `0` through
`N-1` in order, a fresh recovery scan of the resulting file returns
next-index `N`, and - when `N < 2 ^ 32`, so that the next index still
fits the on-disk serializer - the write performed after the restart uses
index `N` exactly; no sequence index is reused across the restart. -/
theorem write_roundtrip (tls : Nat → List Nat) (N : Nat)
    (h16 : ∀ k, (tls k).length = 16) (h1 : 1 ≤ N) (h2 : N ≤ 2 ^ 32) :
    ∃ st' rs, writeN tls N ⟨none, 0⟩ = some st' ∧ st'.i = N ∧
      rs.map LogRec.idx = List.range N ∧
      st'.file = some (recsBytes rs) ∧
      loadLastIndex st'.file = some N ∧
      dbInit st'.file = some ⟨st'.file, N⟩ ∧
      (N < 2 ^ 32 → ∀ tl, dbWrite ⟨st'.file, N⟩ tl =
        some ⟨some (recsBytes rs ++ packRecord (photoLabel N) N tl), N + 1⟩) := by
  obtain ⟨st', hwn, hinv, hi⟩ :=
    writeN_inv tls h16 N ⟨none, 0⟩ (Or.inl ⟨rfl, rfl⟩) (by simpa using h2)
  have hiN : st'.i = N := by simpa using hi
  rcases hinv with ⟨h0, _⟩ | ⟨hge, rs, hwf, hmap, hlast, hfile⟩
  · omega
  · have hload : loadLastIndex st'.file = some N := by
      rw [hfile, loadLastIndex, show recsBytes rs = recsBytes rs ++ [] by simp,
        scan_recs rs [] 0 hwf]
      rw [scanRecords]
      show some (lastIdx 0 rs + 1) = some N
      rw [hlast, hiN]
      congr 1
      omega
    refine ⟨st', rs, hwn, hiN, by rw [hmap, hiN], hfile, hload, ?_, ?_⟩
    · rw [dbInit, hload]
      rfl
    · intro hN tl
      rw [dbWrite, if_pos (show (DbState.mk st'.file N).i < 2 ^ 32 from hN)]
      rw [show (DbState.mk st'.file N).file = st'.file from rfl, hfile]
      rfl

theorem write_roundtrip_witness :
    (∀ k : Nat, (List.replicate 16 0).length = 16) ∧
    ((1 : Nat) ≤ 2 ∧ (2 : Nat) ≤ 2 ^ 32) ∧
    (∃ st' rs, writeN (fun _ => List.replicate 16 0) 2 ⟨none, 0⟩ = some st' ∧
      st'.i = 2 ∧
      rs.map LogRec.idx = List.range 2 ∧
      st'.file = some (recsBytes rs) ∧
      loadLastIndex st'.file = some 2 ∧
      dbInit st'.file = some ⟨st'.file, 2⟩ ∧
      ((2 : Nat) < 2 ^ 32 → ∀ tl, dbWrite ⟨st'.file, 2⟩ tl =
        some ⟨some (recsBytes rs ++ packRecord (photoLabel 2) 2 tl), 3⟩)) :=
  ⟨fun _ => by simp, ⟨by norm_num, by norm_num⟩,
   write_roundtrip (fun _ => List.replicate 16 0) 2 (fun _ => by simp)
     (by norm_num) (by norm_num)⟩

/-! ## Command gate (`client/command_processor.py`) -/

def ROLE_CLIENT : Int := 1

def ROLE_VIP : Int := 2

def ROLE_ADMIN : Int := 3

/-- The static role-permission table. -/
def PERMISSIONS : List (String × List Int) :=
  [("MAKE PHOTO", [ROLE_CLIENT, ROLE_VIP, ROLE_ADMIN]),
   ("ORBIT", [ROLE_VIP, ROLE_ADMIN]),
   ("ADD ZONE", [ROLE_ADMIN]),
   ("REMOVE ZONE", [ROLE_ADMIN])]

/-- `check_permission`: `role in PERMISSIONS.get(command_name, set())`. -/
def check_permission (role : Int) (command_name : String) : Bool :=
  match PERMISSIONS.lookup command_name with
  | some roles => roles.contains role
  | none => false

structure Command where
  name : String
  args : List Rat
deriving DecidableEq

structure UserContext where
  username : String
  role : Int
deriving DecidableEq

/-- `_execute_orbit_command`: unpack three arguments (raising on any
other arity), validate the altitude range before anything else, then
emit one `change_orbit` message to the hub mailbox if it is registered,
incrementing the counter. -/
def executeOrbitCommand (qs : List String) (user : UserContext)
    (counter : Nat) (args : List Rat) : Except String (Nat × List Sent) :=
  match args with
  | [altitude, raan, inclination] =>
    if (160000 : Rat) ≤ altitude ∧ altitude ≤ 2000000 then
      if "security" ∈ qs then
        .ok (counter + 1,
          [⟨"security",
            { source := "client_" ++ user.username
              destination := "orbit_control"
              operation := "change_orbit"
              parameters := .tup [altitude, raan, inclination]
              signature := some ("orbit_" ++ user.username ++ "_" ++ toString counter) }⟩])
      else .ok (counter, [])
    else .error "altitude out of range"
  | _ => .error "argument unpacking failed"

/-- `_execute_photo_command`. -/
def executePhotoCommand (qs : List String) (user : UserContext)
    (counter : Nat) : Except String (Nat × List Sent) :=
  if "security" ∈ qs then
    .ok (counter + 1,
      [⟨"security",
        { source := "client_" ++ user.username
          destination := "optics_control"
          operation := "request_photo"
          parameters := .pnone
          extra_parameters := some [("user", .str user.username),
            ("role", .num (user.role : Rat)), ("priority", .num 1)]
          signature := some ("photo_" ++ user.username ++ "_" ++ toString counter) }⟩])
  else .ok (counter, [])

/-- `_execute_add_zone_command`: build the normalized zone and emit one
`add_restricted_zone` message. -/
def executeAddZoneCommand (qs : List String) (user : UserContext)
    (counter : Nat) (args : List Rat) : Except String (Nat × List Sent) :=
  match args with
  | [zid, lat1, lon1, lat2, lon2] =>
    if "security" ∈ qs then
      .ok (counter + 1,
        [⟨"security",
          { source := "client_" ++ user.username
            destination := "security_monitor"
            operation := "add_restricted_zone"
            parameters := .zone
              { zone_id := zid
                lat_bot_left := min lat1 lat2
                lon_bot_left := min lon1 lon2
                lat_top_right := max lat1 lat2
                lon_top_right := max lon1 lon2
                severity_level := 3
                description := "added by " ++ user.username }
            extra_parameters := some [("user", .str user.username),
              ("role", .num (user.role : Rat))]
            signature := some ("addzone_" ++ user.username ++ "_" ++ toString counter) }⟩])
    else .ok (counter, [])
  | _ => .error "argument unpacking failed"

/-- `_execute_remove_zone_command`: `args[0]` raises on an empty tuple;
otherwise emit one `remove_restricted_zone` message. -/
def executeRemoveZoneCommand (qs : List String) (user : UserContext)
    (counter : Nat) (args : List Rat) : Except String (Nat × List Sent) :=
  match args with
  | zid :: _ =>
    if "security" ∈ qs then
      .ok (counter + 1,
        [⟨"security",
          removeZoneEvent ("client_" ++ user.username) "security_monitor" zid
            (some [("user", .str user.username), ("role", .num (user.role : Rat))])
            (some ("removezone_" ++ user.username ++ "_" ++ toString counter))⟩])
    else .ok (counter, [])
  | [] => .error "tuple index out of range"

/-- The command dispatch of `_execute_single_command` (inside its try
block): unknown names raise. -/
def runCommand (qs : List String) (user : UserContext) (counter : Nat)
    (cmd : Command) : Except String (Nat × List Sent) :=
  if cmd.name = "ORBIT" then executeOrbitCommand qs user counter cmd.args
  else if cmd.name = "MAKE PHOTO" then executePhotoCommand qs user counter
  else if cmd.name = "ADD ZONE" then executeAddZoneCommand qs user counter cmd.args
  else if cmd.name = "REMOVE ZONE" then executeRemoveZoneCommand qs user counter cmd.args
  else .error "unknown command"

/-- `CommandInterpreter._execute_single_command`: a failed permission
check logs a refusal and produces nothing; otherwise the command body
runs with any raised exception caught and logged as a command error. -/
def executeSingleCommand (qs : List String) (user : UserContext)
    (counter : Nat) (cmd : Command) : Nat × List Sent × List LogEntry :=
  if check_permission user.role cmd.name then
    match runCommand qs user counter cmd with
    | .ok (c', sent) => (c', sent, [.cmdSuccess cmd.name])
    | .error _ => (counter, [], [.cmdError cmd.name])
  else (counter, [], [.permissionDenied user.username cmd.name])

/-- Argument validity, as the command bodies check it: correct unpack
arity everywhere, plus the orbit altitude range. -/
def argsValid (cmd : Command) : Bool :=
  if cmd.name = "ORBIT" then
    match cmd.args with
    | [altitude, _, _] => decide ((160000 : Rat) ≤ altitude ∧ altitude ≤ 2000000)
    | _ => false
  else if cmd.name = "MAKE PHOTO" then true
  else if cmd.name = "ADD ZONE" then decide (cmd.args.length = 5)
  else if cmd.name = "REMOVE ZONE" then decide (1 ≤ cmd.args.length)
  else false

/-- C6: a role without permission for a command produces no message and
leaves the per-session counter unchanged (only a refusal is logged); an
authorized role whose arguments pass the command's own validation, with
the hub mailbox registered, places exactly one message in the hub mailbox
and increments the counter by one. -/
theorem gate_exactly_one_message (qs : List String) (user : UserContext)
    (counter : Nat) (cmd : Command) :
    (check_permission user.role cmd.name = false →
      executeSingleCommand qs user counter cmd =
        (counter, [], [.permissionDenied user.username cmd.name])) ∧
    (check_permission user.role cmd.name = true → argsValid cmd = true →
      "security" ∈ qs →
      (executeSingleCommand qs user counter cmd).2.1.length = 1 ∧
      ∀ s ∈ (executeSingleCommand qs user counter cmd).2.1, s.queueName = "security") ∧
    (check_permission user.role cmd.name = true → argsValid cmd = true →
      "security" ∈ qs →
      (executeSingleCommand qs user counter cmd).1 = counter + 1) := by
  have main : check_permission user.role cmd.name = true → argsValid cmd = true →
      "security" ∈ qs →
      ∃ ev, executeSingleCommand qs user counter cmd =
        (counter + 1, [⟨"security", ev⟩], [.cmdSuccess cmd.name]) := by
    intro hperm hargs hsec
    by_cases h1 : cmd.name = "ORBIT"
    · rw [argsValid, if_pos h1] at hargs
      rcases hc : cmd.args with _ | ⟨a, args1⟩
      · rw [hc] at hargs; simp at hargs
      rcases args1 with _ | ⟨b, args2⟩
      · rw [hc] at hargs; simp at hargs
      rcases args2 with _ | ⟨c, args3⟩
      · rw [hc] at hargs; simp at hargs
      rcases args3 with _ | ⟨d, args4⟩
      swap
      · rw [hc] at hargs; simp at hargs
      rw [hc] at hargs
      simp only [decide_eq_true_eq] at hargs
      obtain ⟨ev, hrun⟩ : ∃ ev, runCommand qs user counter cmd =
          .ok (counter + 1, [⟨"security", ev⟩]) := by
        rw [runCommand, if_pos h1, hc]
        simp only [executeOrbitCommand]
        rw [if_pos hargs, if_pos hsec]
        exact ⟨_, rfl⟩
      rw [executeSingleCommand, if_pos hperm, hrun]
      exact ⟨ev, rfl⟩
    by_cases h2 : cmd.name = "MAKE PHOTO"
    · obtain ⟨ev, hrun⟩ : ∃ ev, runCommand qs user counter cmd =
          .ok (counter + 1, [⟨"security", ev⟩]) := by
        rw [runCommand, if_neg h1, if_pos h2, executePhotoCommand, if_pos hsec]
        exact ⟨_, rfl⟩
      rw [executeSingleCommand, if_pos hperm, hrun]
      exact ⟨ev, rfl⟩
    by_cases h3 : cmd.name = "ADD ZONE"
    · rw [argsValid, if_neg h1, if_neg h2, if_pos h3, decide_eq_true_eq] at hargs
      rcases hc : cmd.args with _ | ⟨a, args1⟩
      · rw [hc] at hargs; simp at hargs
      rcases args1 with _ | ⟨b, args2⟩
      · rw [hc] at hargs; simp at hargs
      rcases args2 with _ | ⟨c, args3⟩
      · rw [hc] at hargs; simp at hargs
      rcases args3 with _ | ⟨d, args4⟩
      · rw [hc] at hargs; simp at hargs
      rcases args4 with _ | ⟨e, args5⟩
      · rw [hc] at hargs; simp at hargs
      rcases args5 with _ | ⟨f, args6⟩
      swap
      · rw [hc] at hargs; simp at hargs
      obtain ⟨ev, hrun⟩ : ∃ ev, runCommand qs user counter cmd =
          .ok (counter + 1, [⟨"security", ev⟩]) := by
        rw [runCommand, if_neg h1, if_neg h2, if_pos h3, hc]
        simp only [executeAddZoneCommand]
        rw [if_pos hsec]
        exact ⟨_, rfl⟩
      rw [executeSingleCommand, if_pos hperm, hrun]
      exact ⟨ev, rfl⟩
    by_cases h4 : cmd.name = "REMOVE ZONE"
    · rw [argsValid, if_neg h1, if_neg h2, if_neg h3, if_pos h4,
        decide_eq_true_eq] at hargs
      rcases hc : cmd.args with _ | ⟨a, args1⟩
      · rw [hc] at hargs; simp at hargs
      obtain ⟨ev, hrun⟩ : ∃ ev, runCommand qs user counter cmd =
          .ok (counter + 1, [⟨"security", ev⟩]) := by
        rw [runCommand, if_neg h1, if_neg h2, if_neg h3, if_pos h4, hc]
        simp only [executeRemoveZoneCommand]
        rw [if_pos hsec]
        exact ⟨_, rfl⟩
      rw [executeSingleCommand, if_pos hperm, hrun]
      exact ⟨ev, rfl⟩
    · exfalso
      have e1 : (cmd.name == "MAKE PHOTO") = false := beq_eq_false_iff_ne.mpr h2
      have e2 : (cmd.name == "ORBIT") = false := beq_eq_false_iff_ne.mpr h1
      have e3 : (cmd.name == "ADD ZONE") = false := beq_eq_false_iff_ne.mpr h3
      have e4 : (cmd.name == "REMOVE ZONE") = false := beq_eq_false_iff_ne.mpr h4
      rw [check_permission] at hperm
      simp [PERMISSIONS, List.lookup, e1, e2, e3, e4] at hperm
  refine ⟨?_, ?_, ?_⟩
  · intro h
    rw [executeSingleCommand, if_neg (by simp [h])]
  · intro hperm hargs hsec
    obtain ⟨ev, hev⟩ := main hperm hargs hsec
    rw [hev]
    constructor
    · rfl
    · intro s hs
      rw [List.mem_singleton] at hs
      subst hs
      rfl
  · intro hperm hargs hsec
    obtain ⟨ev, hev⟩ := main hperm hargs hsec
    rw [hev]

theorem gate_exactly_one_message_witness :
    (check_permission ROLE_CLIENT "ADD ZONE" = false ∧
     executeSingleCommand ["security"] ⟨"bob", ROLE_CLIENT⟩ 0
       ⟨"ADD ZONE", [1001, -40, -30, -10, -10]⟩ =
       (0, [], [.permissionDenied "bob" "ADD ZONE"])) ∧
    (check_permission ROLE_ADMIN "ADD ZONE" = true ∧
     argsValid ⟨"ADD ZONE", [1001, -40, -30, -10, -10]⟩ = true ∧
     "security" ∈ ["security"] ∧
     (executeSingleCommand ["security"] ⟨"root", ROLE_ADMIN⟩ 0
        ⟨"ADD ZONE", [1001, -40, -30, -10, -10]⟩).2.1.length = 1 ∧
     (executeSingleCommand ["security"] ⟨"root", ROLE_ADMIN⟩ 0
        ⟨"ADD ZONE", [1001, -40, -30, -10, -10]⟩).1 = 0 + 1) :=
  ⟨⟨by decide,
    (gate_exactly_one_message ["security"] ⟨"bob", ROLE_CLIENT⟩ 0
       ⟨"ADD ZONE", [1001, -40, -30, -10, -10]⟩).1 (by decide)⟩,
   by decide, by decide, by simp,
   ((gate_exactly_one_message ["security"] ⟨"root", ROLE_ADMIN⟩ 0
       ⟨"ADD ZONE", [1001, -40, -30, -10, -10]⟩).2.1 (by decide) (by decide)
       (by simp)).1,
   (gate_exactly_one_message ["security"] ⟨"root", ROLE_ADMIN⟩ 0
       ⟨"ADD ZONE", [1001, -40, -30, -10, -10]⟩).2.2 (by decide) (by decide)
       (by simp)⟩

/-- C7: an ORBIT command whose altitude lies outside [160000, 2000000]
fails validation before any message is constructed: the command body
raises (modelled as `Except.error`), no message reaches the hub mailbox,
the counter is unchanged, and the resulting log entry is a command error,
which is a different constructor from the permission refusal logged by a
permission denial (which does not raise). -/
theorem gate_orbit_validation (qs : List String) (user : UserContext)
    (counter : Nat) (altitude raan inclination : Rat)
    (hout : ¬ ((160000 : Rat) ≤ altitude ∧ altitude ≤ 2000000)) :
    executeOrbitCommand qs user counter [altitude, raan, inclination] =
      .error "altitude out of range" ∧
    (check_permission user.role "ORBIT" = true →
      executeSingleCommand qs user counter ⟨"ORBIT", [altitude, raan, inclination]⟩ =
        (counter, [], [.cmdError "ORBIT"])) ∧
    ∀ u, LogEntry.cmdError "ORBIT" ≠ LogEntry.permissionDenied u "ORBIT" := by
  have herr : executeOrbitCommand qs user counter [altitude, raan, inclination] =
      .error "altitude out of range" := by
    simp only [executeOrbitCommand]
    rw [if_neg hout]
  refine ⟨herr, ?_, by intro u h; cases h⟩
  intro hperm
  have hrun : runCommand qs user counter ⟨"ORBIT", [altitude, raan, inclination]⟩ =
      .error "altitude out of range" := by
    rw [runCommand, if_pos rfl]
    exact herr
  rw [executeSingleCommand, if_pos hperm, hrun]

theorem gate_orbit_validation_witness :
    (¬ ((160000 : Rat) ≤ 100 ∧ (100 : Rat) ≤ 2000000)) ∧
    (executeOrbitCommand ["security"] ⟨"eve", ROLE_VIP⟩ 0 [100, 0, 0] =
      .error "altitude out of range" ∧
     (check_permission ROLE_VIP "ORBIT" = true ∧
      executeSingleCommand ["security"] ⟨"eve", ROLE_VIP⟩ 0 ⟨"ORBIT", [100, 0, 0]⟩ =
        (0, [], [.cmdError "ORBIT"]))) :=
  ⟨by norm_num,
   (gate_orbit_validation ["security"] ⟨"eve", ROLE_VIP⟩ 0 100 0 0 (by norm_num)).1,
   by decide,
   (gate_orbit_validation ["security"] ⟨"eve", ROLE_VIP⟩ 0 100 0 0
      (by norm_num)).2.1 (by decide)⟩
